import Mathlib

/-!
Shallow embedding of the PrismaUtil repository (src/sqlUtil.js, the extended
module, and src/unnamed/part_000, the simpler near-duplicate module) in Lean 4,
with theorems settling the frozen claims about its specification.

JavaScript values are modelled by the inductive `JsVal`: `undefined` and `null` are
the two JavaScript nullish values, numbers are `Int` (the repository only does
integer arithmetic on them; the one place where division can produce Infinity
or NaN is modelled separately by `JsNum`), arrays and objects are lists, and
`date` is a JavaScript Date object carrying its millisecond timestamp
(`none` stands for an Invalid Date, whose timestamp is NaN).

External collaborators (the Prisma delegate `findMany`/`count`/`create`/...,
the `Date.parse` builtin) are passed in as function parameters, mirroring the
spec, which treats the storage client as an opaque capability.
-/

namespace PrismaUtil

/-- A JavaScript value, as far as the repository inspects one. -/
inductive JsVal where
  | undefined
  | null
  | bool (b : Bool)
  | num (n : Int)
  | str (s : String)
  | arr (xs : List JsVal)
  | obj (fields : List (String × JsVal))
  | date (ms : Option Int)

/-- JavaScript truthiness of the modelled values (`undefined`, `null`, `false`,
`0` and `""` are falsy; arrays, objects and Date objects are truthy). -/
def jsTruthy : JsVal → Bool
  | .undefined => false
  | .null => false
  | .bool b => b
  | .num n => n != 0
  | .str s => s != ""
  | .arr _ => true
  | .obj _ => true
  | .date _ => true

/-- Whether the value is the JavaScript `null`. -/
def isNull : JsVal → Bool
  | .null => true
  | _ => false

/-- Whether the value is `null` or `undefined` (the `val === null ||
val === undefined` test of `transformData`). -/
def isNullOrUndef : JsVal → Bool
  | .null => true
  | .undefined => true
  | _ => false

/-- Whether the value is an array (`Array.isArray`). -/
def isArr : JsVal → Bool
  | .arr _ => true
  | _ => false

/-- Whether the value is an object literal. -/
def isObj : JsVal → Bool
  | .obj _ => true
  | _ => false

/-- First value bound to a key in an association list (JavaScript objects have
unique keys, so first is the only one). -/
def lookupKey : List (String × α) → String → Option α
  | [], _ => none
  | (k', v) :: rest, k => if k' = k then some v else lookupKey rest k

/-- Whether an association list binds a key (the `"k" in o` test). -/
def hasKey : List (String × α) → String → Bool
  | [], _ => false
  | (k', _) :: rest, k => if k' = k then true else hasKey rest k

/-- JavaScript object assignment `o[k] = v`: replace the binding in place when
the key exists, append it otherwise. -/
def setKey : List (String × α) → String → α → List (String × α)
  | [], k, v => [(k, v)]
  | (k', v') :: rest, k, v =>
      if k' = k then (k, v) :: rest else (k', v') :: setKey rest k v

/-- JavaScript `delete o[k]`. -/
def delKey : List (String × α) → String → List (String × α)
  | [], _ => []
  | (k', v') :: rest, k =>
      if k' = k then delKey rest k else (k', v') :: delKey rest k

/-- Property read `o[k]` on the values where the repository performs one:
an object yields its binding or `undefined`; a missing property of a primitive
is `undefined`. (The repository never reads a property of `null` or
`undefined` without first passing the value through `removeNullValues`,
which throws on them.) -/
def getField (v : JsVal) (k : String) : JsVal :=
  match v with
  | .obj fs => (lookupKey fs k).getD .undefined
  | _ => .undefined

/-- Property read on an association list of fields, `undefined` when absent. -/
def getKey (w : List (String × JsVal)) (k : String) : JsVal :=
  (lookupKey w k).getD .undefined

/-- The fields of an object literal (empty for every other value). -/
def objFields : JsVal → List (String × JsVal)
  | .obj fs => fs
  | _ => []

/-- The `obj[key] !== null` filter of `removeNullValues` (note that a key bound
to `undefined` survives it: `undefined !== null` holds in JavaScript). -/
def stripNullFields (fs : List (String × JsVal)) : List (String × JsVal) :=
  fs.filter (fun q => !isNull q.2)

/-- sqlUtil.js `removeNullValues(obj)`: copy the own enumerable keys of `obj`
whose values are not `null` into a fresh object. `Object.keys` of `null` or
`undefined` throws a TypeError; of a string it is the character indices; of an
array it is the element indices; of a number, boolean or Date it is empty. -/
def removeNullValues : JsVal → Except String JsVal
  | .obj fs => .ok (.obj (stripNullFields fs))
  | .str s =>
      .ok (.obj (s.toList.enum.map (fun p => (toString p.1, JsVal.str (toString p.2)))))
  | .arr xs =>
      .ok (.obj (stripNullFields (xs.enum.map (fun p => (toString p.1, p.2)))))
  | .null => .error "TypeError"
  | .undefined => .error "TypeError"
  | _ => .ok (.obj [])

/-- One operator clause of the produced predicate. -/
inductive Clause where
  | range (gte lte : JsVal)
  | hasEvery (xs : List JsVal)
  | hasSome (xs : List JsVal)
  | inList (xs : List JsVal)
  | contains (v : JsVal)
  | equals (v : JsVal)
  | pathEquals (path : List String) (v : JsVal)

/-- A value bound to one key of the `where` object: either a plain operator
clause, or (under the key `"OR"`) a list of single-key sub-predicates. -/
inductive WhereVal where
  | cl (c : Clause)
  | orList (xs : List (String × Clause))

/-- The `where` object handed to the storage client. -/
abbrev Where := List (String × WhereVal)

/-- Sequential `value.map(f)` where the callback may throw: the first thrown
error propagates. -/
def mapME (f : α → Except ε β) : List α → Except ε (List β)
  | [] => .ok []
  | x :: xs => do
    let y ← f x
    let ys ← mapME f xs
    pure (y :: ys)

/-- The callback of the extended `handleConditions` address branch, applied to
one nested filter object `param` of the address value:
`removeNullValues(param)` first, then a nested-path clause on `country` when
`param.country` is truthy and `param.province` and `param.city` are both
falsy, otherwise an `equals` clause on the stripped object. -/
def addrClauseExt (key : String) (param : JsVal) : Except String (String × Clause) := do
  let result ← removeNullValues param
  if jsTruthy (getField param "country")
      && !jsTruthy (getField param "province")
      && !jsTruthy (getField param "city") then
    pure (key, Clause.pathEquals ["country"] (getField param "country"))
  else
    pure (key, Clause.equals result)

/-- One loop iteration of the extended `handleConditions` (sqlUtil.js): the
entry written into `where` for a key/value pair of the condition map.
`value.map` on a non-array throws a TypeError. -/
def condStepExt (rangeField ListField addressField logicAndListField searchField : List String)
    (key : String) (value : JsVal) : Except String (String × WhereVal) :=
  if key ∈ addressField then
    match value with
    | .arr xs => do
        let cls ← mapME (addrClauseExt key) xs
        pure ("OR", WhereVal.orList cls)
    | _ => .error "TypeError"
  else
    match value with
    | .arr xs =>
        if key ∈ rangeField then
          pure (key, WhereVal.cl (Clause.range (xs.getD 0 .undefined) (xs.getD 1 .undefined)))
        else if key ∈ logicAndListField then
          pure (key, WhereVal.cl (Clause.hasEvery xs))
        else if key ∈ ListField then
          pure (key, WhereVal.cl (Clause.hasSome xs))
        else
          pure (key, WhereVal.cl (Clause.inList xs))
    | _ =>
        if key ∈ searchField then
          pure (key, WhereVal.cl (Clause.contains value))
        else
          pure (key, WhereVal.cl (Clause.equals value))

/-- The `for (const key in conditions)` loop shared by both module versions:
fold the per-pair step over the condition map, building the `where` object;
a thrown error aborts the loop and propagates. -/
def handleConditionsGo (step : String → JsVal → Except String (String × WhereVal)) :
    List (String × JsVal) → Where → Except String Where
  | [], w => .ok w
  | (k, v) :: rest, w =>
      match step k v with
      | .error e => .error e
      | .ok entry => handleConditionsGo step rest (setKey w entry.1 entry.2)

/-- sqlUtil.js `handleConditions` (the extended version, with logic-AND list
fields and search fields). The condition map is its own enumerable keys in
insertion order. -/
def handleConditions (conditions : List (String × JsVal))
    (rangeField ListField addressField logicAndListField searchField : List String) :
    Except String Where :=
  handleConditionsGo
    (condStepExt rangeField ListField addressField logicAndListField searchField)
    conditions []

/-- The clauses pushed for one element of an address value by the simpler
module version (src/unnamed/part_000): one clause per truthy `city`,
`country`, `province` property, in that order. Reading a property of a
`null` or `undefined` element throws; elements without those properties
(numbers, booleans, strings, Dates) push nothing. -/
def addrClausesSimple (key : String) (address : JsVal) :
    Except String (List (String × Clause)) :=
  match address with
  | .obj _ =>
      .ok ((if jsTruthy (getField address "city") then
              [(key, Clause.pathEquals ["city"] (getField address "city"))]
            else []) ++
           (if jsTruthy (getField address "country") then
              [(key, Clause.pathEquals ["country"] (getField address "country"))]
            else []) ++
           (if jsTruthy (getField address "province") then
              [(key, Clause.pathEquals ["province"] (getField address "province"))]
            else []))
  | .null => .error "TypeError"
  | .undefined => .error "TypeError"
  | _ => .ok []

/-- The number of iterations of `for (let i = 0; i < value.length; i++)`
given the value of the `length` property: a number runs its positive value
of iterations, `true` coerces to 1, `false` and `null` to 0, `undefined`
makes the comparison false (NaN). Numeric coercion of strings and containers
in the loop bound is not modelled and is mapped to 0 iterations. -/
def jsLengthNat : JsVal → Nat
  | .num n => n.toNat
  | .bool b => if b then 1 else 0
  | _ => 0

/-- One loop iteration of the simpler `handleConditions`
(src/unnamed/part_000). Its address branch runs
`for (let i = 0; i < value.length; i++)` over `value[i]`: an array is
iterated elementwise; reading `.length` of `null` or `undefined` throws a
TypeError; a string is iterated over its characters (one-character strings,
which carry no city/country/province properties and so contribute nothing);
an object is iterated as an array-like, `jsLengthNat` of its `length`
property many times, indexing its properties "0", "1", ...; a number,
boolean or Date has no `length`, so the loop body never runs. -/
def condStepSimple (rangeField ListField addressField : List String)
    (key : String) (value : JsVal) : Except String (String × WhereVal) :=
  if key ∈ addressField then
    match value with
    | .arr xs => do
        let cls ← mapME (addrClausesSimple key) xs
        pure ("OR", WhereVal.orList cls.flatten)
    | .null => .error "TypeError"
    | .undefined => .error "TypeError"
    | .obj fs => do
        let elems := (List.range (jsLengthNat ((lookupKey fs "length").getD .undefined))).map
          (fun i => (lookupKey fs (toString i)).getD .undefined)
        let cls ← mapME (addrClausesSimple key) elems
        pure ("OR", WhereVal.orList cls.flatten)
    | .str s => do
        let cls ← mapME (addrClausesSimple key)
          (s.toList.map (fun c => JsVal.str (toString c)))
        pure ("OR", WhereVal.orList cls.flatten)
    | _ => pure ("OR", WhereVal.orList [])
  else
    match value with
    | .arr xs =>
        if key ∈ rangeField then
          pure (key, WhereVal.cl (Clause.range (xs.getD 0 .undefined) (xs.getD 1 .undefined)))
        else if key ∈ ListField then
          pure (key, WhereVal.cl (Clause.hasSome xs))
        else
          pure (key, WhereVal.cl (Clause.inList xs))
    | _ => pure (key, WhereVal.cl (Clause.equals value))

/-- src/unnamed/part_000 `handleConditions` (the simpler module version,
without logic-AND list fields and search fields). -/
def handleConditionsSimple (conditions : List (String × JsVal))
    (rangeField ListField addressField : List String) : Except String Where :=
  handleConditionsGo (condStepSimple rangeField ListField addressField) conditions []

/-- The `{take, skip}` pair computed by `getPagination`. -/
structure Pagination where
  take : Int
  skip : Int
deriving DecidableEq

/-- sqlUtil.js `getPagination`: `pageNumber || 1` and `pageSize || 20`, then
`skip = (page - 1) * limit`, `take = limit`. The inputs are numbers or the
nullish values (`none`); `some 0` is the falsy number `0`, and a nullish
value is falsy as well. -/
def getPagination (pageNumber pageSize : Option Int) : Pagination :=
  let page : Int := match pageNumber with
    | some n => if n = 0 then 1 else n
    | none => 1
  let limit : Int := match pageSize with
    | some n => if n = 0 then 20 else n
    | none => 20
  { take := limit, skip := (page - 1) * limit }

/-- A JavaScript number as produced by `Math.ceil(totalCount / pageSize)`:
an integer, an infinity, or NaN. -/
inductive JsNum where
  | finite (n : Int)
  | posInf
  | negInf
  | nan
deriving DecidableEq

/-- JavaScript `Math.ceil(t / p)` on integer operands: division by zero gives
an infinity (NaN for `0 / 0`), otherwise the ceiling of the exact quotient. -/
def jsCeilDiv (t p : Int) : JsNum :=
  if p = 0 then
    if t = 0 then .nan else if 0 < t then .posInf else .negInf
  else
    .finite (-(Int.fdiv (-t) p))

/-- The response envelope of `fetchDataWithPagination`. -/
structure Envelope (ρ : Type) where
  data : List ρ
  total : Int
  totalPages : JsNum
  currentPage : Option Int

/-- sqlUtil.js `fetchDataWithPagination`, with the storage client passed in as
the two query capabilities `findMany (where) (orderBy) (take) (skip)` and
`count (where)`. `Math.ceil(totalCount / pageSize)` divides by the RAW
`pageSize` (an absent `pageSize`, modelled `none`, makes it NaN; the falsy
`0` divides by zero). The optional `onDataProcess` callback is applied via
`onDataProcess?.(data) ?? data`, so a nullish callback result falls back to
the raw rows. A condition-translation error propagates: the read path
catches nothing. -/
def fetchDataWithPagination {ρ ω : Type}
    (findMany : Where → ω → Int → Int → List ρ) (count : Where → Int)
    (pageNumber pageSize : Option Int)
    (conditions : List (String × JsVal)) (orderByField : ω)
    (rangeField ListField addressField logicAndListField searchField : List String)
    (onDataProcess : Option (List ρ → Option (List ρ))) :
    Except String (Envelope ρ) := do
  let pg := getPagination pageNumber pageSize
  let query ← handleConditions conditions
    rangeField ListField addressField logicAndListField searchField
  let data := findMany query orderByField pg.take pg.skip
  let totalCount := count query
  let totalPages := match pageSize with
    | none => JsNum.nan
    | some p => jsCeilDiv totalCount p
  let result := match onDataProcess with
    | none => data
    | some f => (f data).getD data
  pure { data := result, total := totalCount,
         totalPages := totalPages, currentPage := pageNumber }

/-- An observable effect of a mutating operation: the delegate call itself and
the `prisma.$disconnect()` teardown. -/
inductive StoreEff where
  | call
  | disconnect
deriving DecidableEq

/-- The discriminated result object returned by the mutating operations. -/
structure MutResult (ρ : Type) where
  success : Bool
  data : Option ρ := none
  error : Option String := none

/-- sqlUtil.js `createData`: the delegate `create` call is abstracted as its
outcome. try/catch/finally: the result is built from the outcome, the
disconnect always runs. -/
def createData {ρ : Type} (store : Except Unit ρ) : MutResult ρ × List StoreEff :=
  match store with
  | .ok d => ({ success := true, data := some d }, [.call, .disconnect])
  | .error _ =>
      ({ success := false, error := some "Error creating data" }, [.call, .disconnect])

/-- sqlUtil.js `batchCreateData` (delegate `createMany`). -/
def batchCreateData (store : Except Unit Unit) : MutResult Unit × List StoreEff :=
  match store with
  | .ok _ => ({ success := true }, [.call, .disconnect])
  | .error _ =>
      ({ success := false, error := some "Error creating data" }, [.call, .disconnect])

/-- sqlUtil.js `deleteData` (delegate `delete`). -/
def deleteData (store : Except Unit Unit) : MutResult Unit × List StoreEff :=
  match store with
  | .ok _ => ({ success := true }, [.call, .disconnect])
  | .error _ =>
      ({ success := false, error := some "Error deleting data" }, [.call, .disconnect])

/-- sqlUtil.js `updateFields` (delegate `updateMany`). Note: its catch branch
returns `{success: false}` with no error message. -/
def updateFields (store : Except Unit Unit) : MutResult Unit × List StoreEff :=
  match store with
  | .ok _ => ({ success := true }, [.call, .disconnect])
  | .error _ => ({ success := false }, [.call, .disconnect])

/-- JavaScript `seconds * 1000` as used by `toSQLDateTime` on the `_seconds`
property, returning the millisecond timestamp of the produced Date (`none` is
NaN, giving an Invalid Date). Numeric coercion is modelled on the shapes that
matter: numbers multiply, `null` coerces to 0, booleans to 0 and 1,
`undefined` to NaN; coercion of strings and containers is not modelled and
is mapped to NaN. -/
def secondsToMs : JsVal → Option Int
  | .num n => some (n * 1000)
  | .null => some 0
  | .bool b => some (if b then 1000 else 0)
  | _ => none

/-- sqlUtil.js `toSQLDateTime`, with the `Date.parse` builtin passed in as
`dateParse` (`none` models the NaN result of an unparseable string). A string
input becomes the parsed Date or `null`; an object input with a `_seconds`
key becomes `new Date(seconds * 1000)`; every other input (including arrays
and Dates, which are `typeof "object"` but lack `_seconds`) becomes `null`. -/
def toSQLDateTime (dateParse : String → Option Int) : JsVal → JsVal
  | .str s =>
      match dateParse s with
      | some t => .date (some t)
      | none => .null
  | .obj fs =>
      if hasKey fs "_seconds" then
        .date (secondsToMs ((lookupKey fs "_seconds").getD .undefined))
      else
        .null
  | _ => .null

/-- sqlUtil.js `transformData`: copy the input object, then for each of its
keys in order: delete it when not in `allFields`; delete it when its (current)
value is `null` or `undefined`; then, when it is in `dateFields`, assign it
`toSQLDateTime` of its current value (which re-adds a key deleted in the
earlier steps, since reading a deleted key yields `undefined`). -/
def transformData (dateParse : String → Option Int)
    (data : List (String × JsVal)) (dateFields allFields : List String) :
    List (String × JsVal) :=
  (data.map (·.1)).foldl (fun result key =>
    let r1 := if key ∈ allFields then result else delKey result key
    let r2 := if isNullOrUndef (getKey r1 key) then delKey r1 key else r1
    if key ∈ dateFields then
      setKey r2 key (toSQLDateTime dateParse (getKey r2 key))
    else r2) data

/-- sqlUtil.js `checkConditions`: every top-level key of the condition map is
in `allFields` plus the reserved connectors `AND`, `OR`, `NOT`. -/
def checkConditions (data : List (String × JsVal)) (allFields : List String) : Bool :=
  (data.map (·.1)).all (fun k => k ∈ allFields ++ ["AND", "OR", "NOT"])

/-! ## Helper lemmas -/

/-- A monadic map whose callback succeeds pointwise is the pure map. -/
theorem mapME_congr_ok (f : α → Except ε β) (g : α → β) :
    ∀ (xs : List α), (∀ x ∈ xs, f x = .ok (g x)) → mapME f xs = .ok (xs.map g)
  | [], _ => rfl
  | x :: xs, h => by
      have hx := h x (by simp)
      have hxs := mapME_congr_ok f g xs (fun y hy => h y (by simp [hy]))
      simp only [mapME, hx, hxs]
      rfl

/-- The shared condition loop is congruent in the per-pair step. -/
theorem handleConditionsGo_congr {step1 step2 : String → JsVal → Except String (String × WhereVal)} :
    ∀ (conds : List (String × JsVal)),
      (∀ kv ∈ conds, step1 kv.1 kv.2 = step2 kv.1 kv.2) →
      ∀ w, handleConditionsGo step1 conds w = handleConditionsGo step2 conds w
  | [], _, _ => rfl
  | (k, v) :: rest, h, w => by
      have hk : step1 k v = step2 k v := h (k, v) (by simp)
      have hrest := handleConditionsGo_congr rest (fun kv hkv => h kv (by simp [hkv]))
      simp only [handleConditionsGo, hk]
      cases step2 k v with
      | error e => rfl
      | ok entry => exact hrest _

/-- Outside the address fields, the per-pair step of the simpler module equals
the extended one run with empty logic-AND-list and search-field sets. -/
theorem condStep_agree (rf lf af : List String) (k : String) (v : JsVal) (hk : k ∉ af) :
    condStepSimple rf lf af k v = condStepExt rf lf af [] [] k v := by
  cases v <;> simp [condStepSimple, condStepExt, hk]

/-! ## Theorems for the claims -/

/-- C3 (confirmed): `getPagination` resolves a falsy `pageNumber` (0 or a
nullish value) to 1 and a falsy `pageSize` to 20, and returns
`skip = (page - 1) * limit` and `take = limit`; in particular
`(2, 10)` gives skip 10 and take 10. -/
theorem getPagination_defaults_and_arithmetic (pn ps : Option Int) :
    getPagination pn ps =
      { take := if ps = some 0 ∨ ps = none then 20 else ps.getD 20,
        skip := ((if pn = some 0 ∨ pn = none then 1 else pn.getD 1) - 1) *
                (if ps = some 0 ∨ ps = none then 20 else ps.getD 20) } ∧
    getPagination (some 2) (some 10) = { take := 10, skip := 10 } := by
  refine ⟨?_, rfl⟩
  rcases pn with _ | n <;> rcases ps with _ | m
  · simp [getPagination]
  · rcases eq_or_ne m 0 with hm | hm <;> simp [getPagination, hm]
  · rcases eq_or_ne n 0 with hn | hn <;> simp [getPagination, hn]
  · rcases eq_or_ne n 0 with hn | hn <;> rcases eq_or_ne m 0 with hm | hm <;>
      simp [getPagination, hn, hm]

/-- C4 (code_bug): evaluation of the paginated fetch at the failing input.
With raw `pageSize = 0` the fetch does NOT raise: it returns an envelope whose
`totalPages` is `Math.ceil(95 / 0) = Infinity`. With `pageSize = 20` it
returns `totalPages = ceil(95 / 20) = 5` as the claim states. -/
theorem fetchDataWithPagination_pageSize_zero_gives_infinity :
    fetchDataWithPagination (fun _ _ _ _ => ([] : List Unit)) (fun _ => 95)
        (some 1) (some 0) [] () [] [] [] [] [] none
      = .ok { data := [], total := 95, totalPages := .posInf, currentPage := some 1 } ∧
    fetchDataWithPagination (fun _ _ _ _ => ([] : List Unit)) (fun _ => 95)
        (some 1) (some 20) [] () [] [] [] [] [] none
      = .ok { data := [], total := 95, totalPages := .finite 5, currentPage := some 1 } :=
  ⟨rfl, rfl⟩

/-- C5 (code_bug): evaluation of the condition translator at the failing
input. A range-classified key whose value is a one-element list is translated
WITHOUT any error, silently indexing positions 0 and 1: the emitted clause is
`{gte: "2020-01-01", lte: undefined}`. -/
theorem handleConditions_range_silently_indexes :
    handleConditions [("createdAt", .arr [.str "2020-01-01"])] ["createdAt"] [] [] [] []
      = .ok [("createdAt", .cl (.range (.str "2020-01-01") .undefined))] := rfl

/-- C6 (code_bug): evaluation of `transformData` at the failing inputs. A key
in `dateFields` but outside the `allFields` allowlist is first deleted and
then re-added with value `null` by the date-normalization step, so the output
retains a disallowed key with a `null` value; likewise an allowlisted date
key whose value is `null` is deleted and re-added as `null`. -/
theorem transformData_readds_deleted_date_keys :
    transformData (fun _ => none) [("a", .str "x")] ["a"] [] = [("a", .null)] ∧
    transformData (fun _ => none) [("b", .null)] ["b"] ["b"] = [("b", .null)] :=
  ⟨rfl, rfl⟩

/-- C1 counterexample: a field classified only as a range field, with the
three-element list value `[1, 2, 3]` (not an ordered pair), still gets the
range rule `{gte: 1, lte: 2}`; the claim's priority demands the default-array
clause `{in: [1, 2, 3]}` there, which differs. -/
theorem handleConditions_range_fires_on_any_array :
    handleConditions [("f", .arr [.num 1, .num 2, .num 3])] ["f"] [] [] [] []
      = .ok [("f", .cl (.range (.num 1) (.num 2)))] ∧
    (Except.ok [("f", WhereVal.cl (Clause.range (.num 1) (.num 2)))] : Except String Where)
      ≠ .ok [("f", .cl (.inList [.num 1, .num 2, .num 3]))] :=
  ⟨rfl, by simp⟩

/-- C1 (corrected, amended): the condition translator classifies each
key/value pair by first-match-wins priority — AddressField, then RangeField
when the value is a list (of any length, indexing positions 0 and 1), then
LogicAndListField, then LogicOrListField, then the default-array `in` clause,
then Search for scalars in SearchFields, then the default scalar `equals`
clause — and emits the clause of the winning category. -/
theorem handleConditions_first_match_priority
    (rf lf af andf sf : List String) (key : String) (xs : List JsVal)
    (v : JsVal) (cls : List (String × Clause)) :
    (key ∈ af → mapME (addrClauseExt key) xs = .ok cls →
      handleConditions [(key, .arr xs)] rf lf af andf sf
        = .ok [("OR", .orList cls)]) ∧
    (key ∉ af → key ∈ rf →
      handleConditions [(key, .arr xs)] rf lf af andf sf
        = .ok [(key, .cl (.range (xs.getD 0 .undefined) (xs.getD 1 .undefined)))]) ∧
    (key ∉ af → key ∉ rf → key ∈ andf →
      handleConditions [(key, .arr xs)] rf lf af andf sf
        = .ok [(key, .cl (.hasEvery xs))]) ∧
    (key ∉ af → key ∉ rf → key ∉ andf → key ∈ lf →
      handleConditions [(key, .arr xs)] rf lf af andf sf
        = .ok [(key, .cl (.hasSome xs))]) ∧
    (key ∉ af → key ∉ rf → key ∉ andf → key ∉ lf →
      handleConditions [(key, .arr xs)] rf lf af andf sf
        = .ok [(key, .cl (.inList xs))]) ∧
    (key ∉ af → isArr v = false → key ∈ sf →
      handleConditions [(key, v)] rf lf af andf sf
        = .ok [(key, .cl (.contains v))]) ∧
    (key ∉ af → isArr v = false → key ∉ sf →
      handleConditions [(key, v)] rf lf af andf sf
        = .ok [(key, .cl (.equals v))]) := by
  refine ⟨?_, ?_, ?_, ?_, ?_, ?_, ?_⟩
  · intro h1 h2
    simp [handleConditions, handleConditionsGo, condStepExt, setKey, h1, h2,
      pure, Except.pure, bind, Except.bind]
  · intro h1 h2
    simp [handleConditions, handleConditionsGo, condStepExt, setKey, h1, h2,
      pure, Except.pure]
  · intro h1 h2 h3
    simp [handleConditions, handleConditionsGo, condStepExt, setKey, h1, h2, h3,
      pure, Except.pure]
  · intro h1 h2 h3 h4
    simp [handleConditions, handleConditionsGo, condStepExt, setKey, h1, h2, h3, h4,
      pure, Except.pure]
  · intro h1 h2 h3 h4
    simp [handleConditions, handleConditionsGo, condStepExt, setKey, h1, h2, h3, h4,
      pure, Except.pure]
  · intro h1 h2 h3
    cases v <;>
      simp_all [handleConditions, handleConditionsGo, condStepExt, setKey, isArr,
        pure, Except.pure]
  · intro h1 h2 h3
    cases v <;>
      simp_all [handleConditions, handleConditionsGo, condStepExt, setKey, isArr,
        pure, Except.pure]

/-- Witness for C1 at a concrete input: a field in both RangeFields and
LogicAndListFields with the pair value `[1, 2]` gets the range rule. -/
theorem handleConditions_first_match_priority_witness :
    handleConditions [("r", .arr [.num 1, .num 2])] ["r"] [] [] ["r"] []
      = .ok [("r", .cl (.range (.num 1) (.num 2)))] :=
  (handleConditions_first_match_priority ["r"] [] [] ["r"] [] "r"
    [.num 1, .num 2] .null []).2.1 (by simp) (by simp)

/-- C2 counterexample: the nested object `{country: "US", zip: "95110"}` does
not have `country` as its only key (and no key is null, so stripping removes
nothing), yet the translator emits the nested-path-equals clause on
`["country"]`; the claim demands the equals clause on the full stripped
object, which differs. -/
theorem handleConditions_address_ignores_other_keys :
    handleConditions
        [("location", .arr [.obj [("country", .str "US"), ("zip", .str "95110")]])]
        [] [] ["location"] [] []
      = .ok [("OR", .orList [("location", .pathEquals ["country"] (.str "US"))])] ∧
    Clause.pathEquals ["country"] (.str "US")
      ≠ .equals (.obj [("country", .str "US"), ("zip", .str "95110")]) :=
  ⟨rfl, by simp⟩

/-- C2 (corrected, amended): for an address-classified key whose value is a
list of nested filter objects, each nested object is translated to a
nested-path-equals clause on path `["country"]` when its `country` value is
truthy and its `province` and `city` values are both falsy or absent, and
otherwise to an equals clause matching the object stripped of null-valued
keys; all resulting sub-clauses are collected into the single OR list of the
predicate. -/
theorem handleConditions_address_translation
    (rf lf af andf sf : List String) (key : String) (ps : List JsVal)
    (haf : key ∈ af) (hobj : ∀ p ∈ ps, isObj p = true) :
    handleConditions [(key, .arr ps)] rf lf af andf sf
      = .ok [("OR", .orList (ps.map (fun p =>
          if jsTruthy (getField p "country") && !jsTruthy (getField p "province")
              && !jsTruthy (getField p "city") then
            (key, Clause.pathEquals ["country"] (getField p "country"))
          else
            (key, Clause.equals (.obj (stripNullFields (objFields p)))))))] := by
  have hmap := mapME_congr_ok (addrClauseExt key)
    (fun p =>
      if jsTruthy (getField p "country") && !jsTruthy (getField p "province")
          && !jsTruthy (getField p "city") then
        (key, Clause.pathEquals ["country"] (getField p "country"))
      else
        (key, Clause.equals (.obj (stripNullFields (objFields p)))))
    ps
    (fun p hp => by
      have := hobj p hp
      cases p <;> simp_all [isObj, addrClauseExt, removeNullValues, objFields]
      split <;> rfl)
  simp [handleConditions, handleConditionsGo, condStepExt, haf, hmap, setKey]

/-- Witness for C2 at the concrete input of the claim:
`{"location": [{"country": "US"}]}` with `location` address-classified yields
an OR list with one nested-path-equals clause on path `["country"]`. -/
theorem handleConditions_address_translation_witness :
    handleConditions [("location", .arr [.obj [("country", .str "US")]])]
        [] [] ["location"] [] []
      = .ok [("OR", .orList [("location", .pathEquals ["country"] (.str "US"))])] := by
  simpa using handleConditions_address_translation [] [] ["location"] [] []
    "location" [.obj [("country", .str "US")]] (by simp) (by simp [isObj])

/-- C7 counterexample: `{_seconds: null}` is not an object with a numeric
`_seconds` field, so the claim demands `null`; the code computes
`new Date(null * 1000) = new Date(0)`, the epoch instant, which is not
`null`. -/
theorem toSQLDateTime_seconds_null_gives_epoch :
    toSQLDateTime (fun _ => none) (.obj [("_seconds", .null)]) = .date (some 0) ∧
    JsVal.date (some 0) ≠ .null :=
  ⟨rfl, by simp⟩

/-- C7 (corrected, amended): the date-time normalizer returns the parsed
instant for a string the `Date.parse` builtin accepts and `null` for an
unparseable string; for an object with a `_seconds` key it always returns a
Date object — the instant at `_seconds * 1000` milliseconds when `_seconds`
is numeric, and otherwise the Date produced by JavaScript numeric coercion of
`_seconds` (never `null`); it returns `null` for every other input; and it
never raises (the function is total). -/
theorem toSQLDateTime_spec (p : String → Option Int) (s : String) (t : Int)
    (fs : List (String × JsVal)) (n : Int) (b : Bool) (xs : List JsVal)
    (d : Option Int) :
    (p s = some t → toSQLDateTime p (.str s) = .date (some t)) ∧
    (p s = none → toSQLDateTime p (.str s) = .null) ∧
    (hasKey fs "_seconds" = true → lookupKey fs "_seconds" = some (.num n) →
      toSQLDateTime p (.obj fs) = .date (some (n * 1000))) ∧
    (hasKey fs "_seconds" = true → ∃ ms, toSQLDateTime p (.obj fs) = .date ms) ∧
    (hasKey fs "_seconds" = false → toSQLDateTime p (.obj fs) = .null) ∧
    toSQLDateTime p .null = .null ∧
    toSQLDateTime p .undefined = .null ∧
    toSQLDateTime p (.bool b) = .null ∧
    toSQLDateTime p (.num n) = .null ∧
    toSQLDateTime p (.arr xs) = .null ∧
    toSQLDateTime p (.date d) = .null := by
  refine ⟨?_, ?_, ?_, ?_, ?_, rfl, rfl, rfl, rfl, rfl, rfl⟩ <;>
    intros <;> simp_all [toSQLDateTime, secondsToMs]

/-- Witness for C7 at the concrete input of the claim: `{_seconds: 100}`
normalizes to the instant 100 seconds (100000 milliseconds) after the
epoch. -/
theorem toSQLDateTime_spec_witness :
    toSQLDateTime (fun _ => none) (.obj [("_seconds", .num 100)])
      = .date (some 100000) :=
  (toSQLDateTime_spec (fun _ => none) "" 0 [("_seconds", .num 100)] 100 true []
    none).2.2.1 rfl rfl

/-- C8 counterexample: a failing store call inside `updateFields` is caught
and converted into `{success: false}` with NO error message, while the claim
demands the shape `{success: false, error: <message>}`. -/
theorem updateFields_failure_lacks_error_message :
    updateFields (.error ())
      = ({ success := false, data := none, error := none }, [.call, .disconnect]) :=
  rfl

/-- C8 (corrected, amended): for `createData`, `batchCreateData` and
`deleteData` a store failure is caught and converted into
`{success: false, error: <message>}`; for `updateFields` it is converted into
`{success: false}` without a message; and on every exit path of all four
operations the disconnect step runs exactly once. -/
theorem mutating_ops_disconnect_once_and_discriminate (ρ : Type) (d : ρ)
    (o : Except Unit ρ) (o1 o2 o3 : Except Unit Unit) :
    (createData o).2.count .disconnect = 1 ∧
    (batchCreateData o1).2.count .disconnect = 1 ∧
    (deleteData o2).2.count .disconnect = 1 ∧
    (updateFields o3).2.count .disconnect = 1 ∧
    createData (Except.ok d)
      = ({ success := true, data := some d, error := none }, [.call, .disconnect]) ∧
    createData (Except.error () : Except Unit ρ)
      = ({ success := false, data := none, error := some "Error creating data" },
         [.call, .disconnect]) ∧
    batchCreateData (.ok ())
      = ({ success := true, data := none, error := none }, [.call, .disconnect]) ∧
    batchCreateData (.error ())
      = ({ success := false, data := none, error := some "Error creating data" },
         [.call, .disconnect]) ∧
    deleteData (.ok ())
      = ({ success := true, data := none, error := none }, [.call, .disconnect]) ∧
    deleteData (.error ())
      = ({ success := false, data := none, error := some "Error deleting data" },
         [.call, .disconnect]) ∧
    updateFields (.ok ())
      = ({ success := true, data := none, error := none }, [.call, .disconnect]) ∧
    updateFields (.error ())
      = ({ success := false, data := none, error := none }, [.call, .disconnect]) := by
  refine ⟨?_, ?_, ?_, ?_, rfl, rfl, rfl, rfl, rfl, rfl, rfl, rfl⟩
  · cases o <;> rfl
  · cases o1 <;> rfl
  · cases o2 <;> rfl
  · cases o3 <;> rfl

/-- C9 counterexample: on `{"location": [{"city": "SJ"}]}` with `location`
address-classified, the simpler module emits a nested-path-equals clause on
`["city"]` while the extended module (with empty logic-AND-list and
search-field sets) emits an equals clause on the whole object: the two
predicates differ. -/
theorem handleConditionsSimple_differs_on_address :
    handleConditionsSimple [("location", .arr [.obj [("city", .str "SJ")]])]
        [] [] ["location"]
      = .ok [("OR", .orList [("location", .pathEquals ["city"] (.str "SJ"))])] ∧
    handleConditions [("location", .arr [.obj [("city", .str "SJ")]])]
        [] [] ["location"] [] []
      = .ok [("OR", .orList [("location", .equals (.obj [("city", .str "SJ")]))])] ∧
    ([("OR", WhereVal.orList [("location", .pathEquals ["city"] (.str "SJ"))])] : Where)
      ≠ [("OR", .orList [("location", .equals (.obj [("city", .str "SJ")]))])] :=
  ⟨rfl, rfl, by simp⟩

/-- C9 (corrected, amended): on every condition map none of whose keys is
address-classified, the simpler module's `handleConditions` produces exactly
the predicate of the extended module's `handleConditions` called with empty
logic-AND-list and search-field category sets. -/
theorem handleConditionsSimple_refines_extended
    (conds : List (String × JsVal)) (rf lf af : List String)
    (h : ∀ kv ∈ conds, kv.1 ∉ af) :
    handleConditionsSimple conds rf lf af = handleConditions conds rf lf af [] [] :=
  handleConditionsGo_congr conds
    (fun kv hkv => condStep_agree rf lf af kv.1 kv.2 (h kv hkv)) []

/-- Witness for C9 at a concrete input: a list-OR condition translates
identically in the two module versions. -/
theorem handleConditionsSimple_refines_extended_witness :
    handleConditionsSimple [("tags", .arr [.str "a", .str "b"])] [] ["tags"] []
      = handleConditions [("tags", .arr [.str "a", .str "b"])] [] ["tags"] [] [] [] :=
  handleConditionsSimple_refines_extended
    [("tags", .arr [.str "a", .str "b"])] [] ["tags"] [] (by simp)

/-- C10 (confirmed): calling the paginated fetch with a falsy `pageNumber`
(a nullish value or 0) returns exactly the page-1 envelope — in particular
the records fetched at offset 0 — except that its `currentPage` field is the
raw falsy `pageNumber` as supplied by the caller, not the defaulted 1. -/
theorem fetchDataWithPagination_falsy_pageNumber {ρ ω : Type}
    (findMany : Where → ω → Int → Int → List ρ) (count : Where → Int)
    (ps : Option Int) (conds : List (String × JsVal)) (ob : ω)
    (rf lf af andf sf : List String) (odp : Option (List ρ → Option (List ρ))) :
    fetchDataWithPagination findMany count none ps conds ob rf lf af andf sf odp
      = (fetchDataWithPagination findMany count (some 1) ps conds ob rf lf af andf sf odp).map
          (fun env => { env with currentPage := none }) ∧
    fetchDataWithPagination findMany count (some 0) ps conds ob rf lf af andf sf odp
      = (fetchDataWithPagination findMany count (some 1) ps conds ob rf lf af andf sf odp).map
          (fun env => { env with currentPage := some 0 }) := by
  constructor <;>
  · cases h : handleConditions conds rf lf af andf sf <;>
      simp [fetchDataWithPagination, h, getPagination, Except.map]

end PrismaUtil
